import Mathlib

/-!
# Verification of the gizmo request/response engine (src/gizmo/connection.py)

A shallow embedding of the request/response protocol engine and the
result-translation/hydration pipeline of the gizmo repository.  Python
values are modelled by the inductive `PyVal`; Python dicts are
insertion-ordered association lists; mutation of objects is modelled by
explicit state passing; code that can raise exceptions is modelled in
`Except`.
-/

namespace Gizmo

/-- A Python value as it appears in the JSON payloads handled by
`connection.py`: `None`, booleans, integers, strings, lists and dicts.
Dicts are insertion-ordered association lists with `PyVal` keys, matching
Python dict semantics for the value shapes the engine manipulates. -/
inductive PyVal where
  | none
  | bool (b : Bool)
  | int (n : Int)
  | str (s : String)
  | list (xs : List PyVal)
  | dict (entries : List (PyVal × PyVal))
deriving Repr

mutual

/-- Structural equality on `PyVal`, mirroring Python value equality on the
shapes the engine manipulates. -/
def PyVal.beq : PyVal → PyVal → Bool
  | .none, .none => true
  | .bool a, .bool b => a == b
  | .int a, .int b => a == b
  | .str a, .str b => a == b
  | .list xs, .list ys => beqList xs ys
  | .dict es, .dict fs => beqDict es fs
  | _, _ => false

/-- Elementwise equality of `PyVal` lists. -/
def beqList : List PyVal → List PyVal → Bool
  | [], [] => true
  | x :: xs, y :: ys => PyVal.beq x y && beqList xs ys
  | _, _ => false

/-- Entrywise equality of `PyVal` dict entry lists. -/
def beqDict : List (PyVal × PyVal) → List (PyVal × PyVal) → Bool
  | [], [] => true
  | (k, v) :: es, (l, w) :: fs => PyVal.beq k l && PyVal.beq v w && beqDict es fs
  | _, _ => false

end

/-- `PyVal.beq` (and its list/dict companions) decide propositional
equality. -/
theorem beq_spec_all :
    (∀ a b : PyVal, PyVal.beq a b = true ↔ a = b) ∧
    (∀ es fs : List (PyVal × PyVal), beqDict es fs = true ↔ es = fs) ∧
    (∀ xs ys : List PyVal, beqList xs ys = true ↔ xs = ys) := by
  apply PyVal.beq.mutual_induct
  · simp [PyVal.beq]
  · intro a b; cases a <;> cases b <;> simp [PyVal.beq]
  · intro a b; simp [PyVal.beq]
  · intro a b; simp [PyVal.beq]
  · intro xs ys ih; simpa [PyVal.beq] using ih
  · intro es fs ih; simpa [PyVal.beq] using ih
  · intro t x h1 h2 h3 h4 h5 h6
    cases t <;> cases x <;> simp_all [PyVal.beq]
  · simp [beqList]
  · intro x xs y ys ih1 ih2; simp [beqList, ih1, ih2]
  · intro t x h1 h2
    cases t with
    | nil => cases x with
      | nil => exact (h1 rfl rfl).elim
      | cons y ys => simp [beqList]
    | cons a as => cases x with
      | nil => simp [beqList]
      | cons y ys => exact (h2 a as y ys rfl rfl).elim
  · simp [beqDict]
  · intro k v es l w fs ih1 ih2 ih3; simp [beqDict, ih1, ih2, ih3]
  · intro t x h1 h2
    cases t with
    | nil => cases x with
      | nil => exact (h1 rfl rfl).elim
      | cons q fs2 => simp [beqDict]
    | cons p es2 => cases x with
      | nil => simp [beqDict]
      | cons q fs2 => exact (h2 p.1 p.2 es2 q.1 q.2 fs2 rfl rfl).elim

instance : DecidableEq PyVal := fun a b =>
  decidable_of_iff (PyVal.beq a b = true) (beq_spec_all.1 a b)

mutual

/-- `copy.deepcopy` on a `PyVal`: rebuild the whole value tree.  In a pure
value embedding the copy is structurally identical to its source; the
aliasing it breaks in Python has no counterpart on immutable values. -/
def pyDeepCopy : PyVal → PyVal
  | .none => .none
  | .bool b => .bool b
  | .int n => .int n
  | .str s => .str s
  | .list xs => .list (pyDeepCopyList xs)
  | .dict es => .dict (pyDeepCopyDict es)

/-- `copy.deepcopy` of a Python list, element by element. -/
def pyDeepCopyList : List PyVal → List PyVal
  | [] => []
  | x :: xs => pyDeepCopy x :: pyDeepCopyList xs

/-- `copy.deepcopy` of a Python dict, entry by entry. -/
def pyDeepCopyDict : List (PyVal × PyVal) → List (PyVal × PyVal)
  | [] => []
  | p :: es => (pyDeepCopy p.1, pyDeepCopy p.2) :: pyDeepCopyDict es

end

/-- Deep copying a pure value yields the value itself (and likewise for
lists and dict entry lists). -/
theorem pyDeepCopy_id_all :
    (∀ v : PyVal, pyDeepCopy v = v) ∧
    (∀ es : List (PyVal × PyVal), pyDeepCopyDict es = es) ∧
    (∀ xs : List PyVal, pyDeepCopyList xs = xs) := by
  apply pyDeepCopy.mutual_induct
  · simp [pyDeepCopy]
  · intro b; simp [pyDeepCopy]
  · intro n; simp [pyDeepCopy]
  · intro s; simp [pyDeepCopy]
  · intro xs ih; simp [pyDeepCopy, ih]
  · intro es ih; simp [pyDeepCopy, ih]
  · simp [pyDeepCopyList]
  · intro x xs ih1 ih2; simp [pyDeepCopyList, ih1, ih2]
  · simp [pyDeepCopyDict]
  · intro p es ih1 ih2 ih3; simp [pyDeepCopyDict, ih1, ih2, ih3]

theorem pyDeepCopy_id (v : PyVal) : pyDeepCopy v = v :=
  pyDeepCopy_id_all.1 v

theorem pyDeepCopyDict_id (es : List (PyVal × PyVal)) : pyDeepCopyDict es = es :=
  pyDeepCopy_id_all.2.1 es

/-- Python truthiness for the shapes above (`or` / `if x:` semantics). -/
def PyVal.truthy : PyVal → Bool
  | .none => false
  | .bool b => b
  | .int n => n != 0
  | .str s => s != ""
  | .list xs => !xs.isEmpty
  | .dict es => !es.isEmpty

/-- `hasattr(x, '__iter__')` on the shapes above: strings, lists and dicts
are iterable in Python 3; `None`, booleans and integers are not. -/
def PyVal.hasIter : PyVal → Bool
  | .none => false
  | .bool _ => false
  | .int _ => false
  | .str _ => true
  | .list _ => true
  | .dict _ => true

/-- `k in d` for a Python dict. -/
def dictHas (es : List (PyVal × PyVal)) (k : PyVal) : Bool :=
  es.any (fun p => decide (p.1 = k))

/-- `d.get(k)` as an `Option` (first matching entry). -/
def dictGet (es : List (PyVal × PyVal)) (k : PyVal) : Option PyVal :=
  (es.find? (fun p => decide (p.1 = k))).map (fun p => p.2)

/-- `d.get(k)`: the stored value, or `None` when the key is absent. -/
def pyGet (es : List (PyVal × PyVal)) (k : PyVal) : PyVal :=
  (dictGet es k).getD .none

/-- `d[k] = v` on a Python dict: replace in place when the key exists
(keeping its position), otherwise append at the end. -/
def dictSet (es : List (PyVal × PyVal)) (k : PyVal) (v : PyVal) :
    List (PyVal × PyVal) :=
  if dictHas es k then
    es.map (fun p => if p.1 = k then (k, v) else p)
  else
    es ++ [(k, v)]

/-- `d.update(other)`: assign each entry of `other` in order. -/
def dictUpdate (es other : List (PyVal × PyVal)) : List (PyVal × PyVal) :=
  other.foldl (fun acc p => dictSet acc p.1 p.2) es

/-- `del d[k]`. -/
def dictDel (es : List (PyVal × PyVal)) (k : PyVal) : List (PyVal × PyVal) :=
  es.filter (fun p => decide (¬ (p.1 = k)))

theorem dictGet_map_set_self (es : List (PyVal × PyVal)) (k v : PyVal)
    (h : dictHas es k = true) :
    dictGet (es.map (fun p => if p.1 = k then (k, v) else p)) k = some v := by
  induction es with
  | nil => simp [dictHas] at h
  | cons p rest ih =>
      by_cases hp : p.1 = k
      · simp [dictGet, hp]
      · have hrest : dictHas rest k = true := by
          simp [dictHas, hp] at h
          simpa [dictHas] using h
        simpa [dictGet, hp] using ih hrest

theorem dictGet_map_set_ne (es : List (PyVal × PyVal)) (k v k2 : PyVal)
    (h : k2 ≠ k) :
    dictGet (es.map (fun p => if p.1 = k then (k, v) else p)) k2
      = dictGet es k2 := by
  induction es with
  | nil => simp [dictGet]
  | cons p rest ih =>
      rw [List.map_cons]
      by_cases hp : p.1 = k
      · rw [if_pos hp]
        have hk2 : ¬ ((k, v).1 = k2) := fun hc => h (by simpa using hc.symm)
        have hp2 : ¬ (p.1 = k2) := by rw [hp]; exact fun hc => h hc.symm
        simp only [dictGet, List.find?_cons] at ih ⊢
        rw [decide_eq_false hk2, decide_eq_false hp2]
        exact ih
      · rw [if_neg hp]
        by_cases hp2 : p.1 = k2
        · simp [dictGet, List.find?_cons, hp2]
        · simp only [dictGet, List.find?_cons] at ih ⊢
          rw [decide_eq_false hp2]
          exact ih

theorem find_none_of_not_has (es : List (PyVal × PyVal)) (k : PyVal)
    (h : dictHas es k = false) :
    es.find? (fun p => decide (p.1 = k)) = Option.none := by
  induction es with
  | nil => simp
  | cons p rest ih =>
      simp [dictHas] at h
      obtain ⟨h1, h2⟩ := h
      simp only [List.find?_cons]
      rw [decide_eq_false h1]
      exact ih (by simpa [dictHas] using h2)

theorem dictGet_dictSet_self (es : List (PyVal × PyVal)) (k v : PyVal) :
    dictGet (dictSet es k v) k = some v := by
  unfold dictSet
  by_cases h : dictHas es k = true
  · simp only [h, if_true]
    exact dictGet_map_set_self es k v h
  · simp only [h]
    simp only [Bool.false_eq_true, if_false]
    have hnone := find_none_of_not_has es k (by simpa using h)
    simp [dictGet, List.find?_append, hnone]

theorem dictGet_append_ne (es : List (PyVal × PyVal)) (k v k2 : PyVal)
    (h : k2 ≠ k) : dictGet (es ++ [(k, v)]) k2 = dictGet es k2 := by
  have hk2 : ¬ (k = k2) := fun hc => h hc.symm
  induction es with
  | nil => simp [dictGet, hk2]
  | cons p rest ih =>
      by_cases hp2 : p.1 = k2
      · simp [dictGet, hp2]
      · simp only [List.cons_append, dictGet, List.find?_cons] at ih ⊢
        rw [decide_eq_false hp2]
        exact ih

theorem dictGet_dictSet_ne (es : List (PyVal × PyVal)) (k v k2 : PyVal)
    (h : k2 ≠ k) : dictGet (dictSet es k v) k2 = dictGet es k2 := by
  unfold dictSet
  by_cases hh : dictHas es k = true
  · simp only [hh, if_true]
    exact dictGet_map_set_ne es k v k2 h
  · simp only [hh]
    simp only [Bool.false_eq_true, if_false]
    exact dictGet_append_ne es k v k2 h

/-- View a value as a mapping, the way attribute access on a dict does:
any non-dict value raises (`.get` / keyword expansion on a non-mapping). -/
def asMapping : PyVal → Except String (List (PyVal × PyVal))
  | .dict es => .ok es
  | _ => .error "object has no mapping interface"

/-- `for x in v`: lists yield their elements, dicts their keys, strings
their characters; any other value raises a type error. -/
def pyIterE : PyVal → Except String (List PyVal)
  | .list xs => .ok xs
  | .dict es => .ok (es.map (fun p => p.1))
  | .str s => .ok (s.toList.map (fun c => .str c.toString))
  | _ => .error "object is not iterable"

/-- Modelled from the spec: domain entity objects come from the external
entity package (not part of this repository's core); per the spec they
expose an `empty` operation clearing all fields and a `hydrate` operation
performing bulk field assignment from a properties mapping.  An entity is
modelled as its field mapping. -/
structure Entity where
  fields : List (PyVal × PyVal)
deriving Repr, DecidableEq

/-- Modelled from the spec: `entity.empty()` clears all fields. -/
def Entity.empty (_e : Entity) : Entity := ⟨[]⟩

/-- Modelled from the spec: `entity.hydrate(props, reset_initial=True)`
bulk-assigns every field of `props` to the entity. -/
def Entity.hydrate (e : Entity) (props : List (PyVal × PyVal)) : Entity :=
  ⟨dictUpdate e.fields props⟩

/-- `self.update_entities[k]` on the binding map (script variable name to
entity object). -/
def entGet (ents : List (String × Entity)) (k : String) : Option Entity :=
  (ents.find? (fun p => decide (p.1 = k))).map (fun p => p.2)

/-- In-place replacement of the entity object bound to `k` (Python mutates
the entity; the model rebinds the name to the mutated entity value). -/
def entAssign (ents : List (String × Entity)) (k : String) (e : Entity) :
    List (String × Entity) :=
  ents.map (fun p => if p.1 = k then (k, e) else p)

/-- The repaired pair list built by `Response._fix_titan_data`: one
singleton dict per element that is a dict bearing both a `key` and a
`value` entry. -/
def titanFixedPairs (xs : List PyVal) : List PyVal :=
  xs.filterMap fun ret =>
    match ret with
    | .dict es =>
        if dictHas es (.str "key") && dictHas es (.str "value") then
          some (.dict [(pyGet es (.str "key"), pyGet es (.str "value"))])
        else
          Option.none
    | _ => Option.none

/-- `Response._fix_titan_data` (src/gizmo/connection.py lines 157-174):
on a list, collect the repaired pairs; if the input was non-empty but the
repair produced nothing, return the input unchanged, otherwise return the
repaired list.  Non-list data is returned unchanged. -/
def fixTitanData : PyVal → PyVal
  | .list xs =>
      if !xs.isEmpty && (titanFixedPairs xs).isEmpty then .list xs
      else .list (titanFixedPairs xs)
  | v => v

/-- `fix_properties` (src/gizmo/connection.py lines 188-201) on a dict:
deep-copy the row, merge a `properties` sub-mapping into the top level and
delete the `properties` key, then normalize `id`, `type` and `label` from
the original row (defaulting each to `None`).  A non-mapping value under
`properties` raises when passed to `dict.update`. -/
def fixProperties (arg : List (PyVal × PyVal)) :
    Except String (List (PyVal × PyVal)) :=
  (if dictHas arg (.str "properties") then
      asMapping (pyGet arg (.str "properties")) >>= fun pes =>
      pure (dictDel (dictUpdate (pyDeepCopyDict arg) pes)
        (.str "properties"))
    else
      pure (pyDeepCopyDict arg)) >>= fun props =>
  pure (dictUpdate props
    [(.str "id", pyGet arg (.str "id")),
     (.str "type", pyGet arg (.str "type")),
     (.str "label", pyGet arg (.str "label"))])

/-- `fix_properties` applied to an arbitrary value: every non-dict
argument raises in Python (no `.get` attribute). -/
def fixPropertiesE : PyVal → Except String (List (PyVal × PyVal))
  | .dict es => fixProperties es
  | _ => .error "fix_properties requires a mapping"

/-- `has_update(keys)` (src/gizmo/connection.py lines 181-186): true when
some key of the row names a caller-supplied binding. -/
def hasUpdate (updateKeys : List String) (ks : List PyVal) : Bool :=
  ks.any fun k =>
    match k with
    | .str s => updateKeys.contains s
    | _ => false

/-- One iteration of the inner `for k, v in arg.items()` loop of
`Response.translate`: when `k` names a binding, compute the flattened
properties, append them to the output and destructively refresh the bound
entity (`entity.empty().hydrate(props, reset_initial=True)`). -/
def hydrateBinding (acc : List PyVal × List (String × Entity))
    (k v : PyVal) : Except String (List PyVal × List (String × Entity)) :=
  match k with
  | .str s =>
      match entGet acc.2 s with
      | some e => do
          let props ← fixPropertiesE v
          pure (acc.1 ++ [.dict props],
                entAssign acc.2 s ((e.empty).hydrate props))
      | Option.none => pure acc
  | _ => pure acc

/-- One iteration of the outer `for arg in data` loop of
`Response.translate` (src/gizmo/connection.py lines 203-218), threading
the output rows and the binding map. -/
def translateStep (updateKeys : List String)
    (acc : List PyVal × List (String × Entity)) (arg : PyVal) :
    Except String (List PyVal × List (String × Entity)) :=
  if arg.hasIter = false then
    .ok ([.dict [(.str "response", arg)]], acc.2)
  else
    match arg with
    | .dict es =>
        if hasUpdate updateKeys (es.map (fun p => p.1)) then
          es.foldlM (fun a p => hydrateBinding a p.1 p.2) acc
        else do
          let props ← fixProperties es
          pure (acc.1 ++ [.dict props], acc.2)
    | _ => .ok (acc.1 ++ [arg], acc.2)

/-- `ResponseStatus` (src/gizmo/connection.py lines 136-141): a plain
holder for the `code`, `message` and `attributes` of a status payload. -/
structure ResponseStatus where
  code : PyVal
  message : PyVal
  attributes : PyVal
deriving Repr, DecidableEq

/-- The state of a `Response` object: the constructor arguments stored by
`Response.__init__` (src/gizmo/connection.py lines 146-155).  The `status`
field is `Option.none` when the constructor received `None`. -/
structure Response where
  request_id : PyVal
  result : PyVal
  update_entities : List (String × Entity)
  script : PyVal
  params : PyVal
  status : Option ResponseStatus
deriving Repr, DecidableEq

/-- The data sequence `translate` iterates over:
`self._fix_titan_data(self.result.get('data') or [])`. -/
def effectiveData (result : PyVal) : Except String PyVal :=
  asMapping result >>= fun es =>
  pure (fixTitanData (if (pyGet es (.str "data")).truthy
    then pyGet es (.str "data") else .list []))

/-- `Response.translate` (src/gizmo/connection.py lines 176-220): returns
the translated rows together with the response state after the loop's
entity side effects.  The transcription writes no field but the binding
map: `fix_properties` deep-copies before mutating, `_fix_titan_data`
builds fresh lists, so `self.result` is never written. -/
def Response.translate (r : Response) :
    Except String (List PyVal × Response) :=
  effectiveData r.result >>= fun dataV =>
  pyIterE dataV >>= fun items =>
  (items.foldlM (translateStep (r.update_entities.map (fun p => p.1)))
    ([], r.update_entities)) >>= fun acc =>
  pure (acc.1, { r with update_entities := acc.2 })

/-- The `data` property (src/gizmo/connection.py lines 222-224): nothing
is cached, every access recomputes `translate`. -/
def Response.data (r : Response) : Except String (List PyVal × Response) :=
  Response.translate r

/-- `Response.__init__` (src/gizmo/connection.py lines 146-155): store the
arguments (`result or {}`, `update_entities or {}` as given), keep the
`status` argument as passed (defaulting to `None`), and run `translate`
once for its entity side effects, discarding the rows. -/
def Response.init (request_id result : PyVal)
    (ue : List (String × Entity)) (script params : PyVal)
    (status : Option ResponseStatus) : Except String Response :=
  (Response.translate
    { request_id := request_id,
      result := if result.truthy then result else .dict [],
      update_entities := ue,
      script := script,
      params := params,
      status := status }) >>= fun x => pure x.2

/-- Python list-indexing arithmetic: non-negative indices must be below
the length, negative indices count from the end. -/
def pyIndex (len : Nat) (i : Int) : Option Nat :=
  if 0 ≤ i then
    if i < (len : Int) then some i.toNat else Option.none
  else
    if 0 ≤ i + (len : Int) then some (i + (len : Int)).toNat else Option.none

/-- `xs[key]` on a Python list: integers (and booleans, which Python
treats as the integers 0 and 1) index with negative-index support and
raise `IndexError` out of range; any other key raises `TypeError`. -/
def pyListGet (xs : List PyVal) (key : PyVal) : Except String PyVal :=
  match key with
  | .int i =>
      match pyIndex xs.length i with
      | some n => .ok (xs.getD n .none)
      | Option.none => .error "list index out of range"
  | .bool b =>
      match pyIndex xs.length (if b then 1 else 0) with
      | some n => .ok (xs.getD n .none)
      | Option.none => .error "list index out of range"
  | _ => .error "list indices must be integers"

/-- `xs[key] = v` on a Python list, with the same key rules. -/
def pyListSet (xs : List PyVal) (key v : PyVal) :
    Except String (List PyVal) :=
  match key with
  | .int i =>
      match pyIndex xs.length i with
      | some n => .ok (xs.set n v)
      | Option.none => .error "list assignment index out of range"
  | .bool b =>
      match pyIndex xs.length (if b then 1 else 0) with
      | some n => .ok (xs.set n v)
      | Option.none => .error "list assignment index out of range"
  | _ => .error "list indices must be integers"

/-- `Response.__getitem__` (src/gizmo/connection.py lines 226-239): look
the key up in the freshly computed `data`, deep-copy the row on success,
and swallow every exception, returning `None` instead.  The returned pair
carries the response state after the `data` read's entity side effects. -/
def Response.getItem (r : Response) (key : PyVal) : PyVal × Response :=
  match Response.data r with
  | .error _ => (.none, r)
  | .ok (rows, r2) =>
      match pyListGet rows key with
      | .ok row => (pyDeepCopy row, r2)
      | .error _ => (.none, r2)

/-- `Response.__setitem__` (src/gizmo/connection.py lines 259-262):
`self.data[key] = val` reads the `data` property (a freshly translated
list) and assigns into that list; no attribute of the response is
written. -/
def Response.setItem (r : Response) (key v : PyVal) :
    Except String (List PyVal × Response) :=
  Response.data r >>= fun x =>
  pyListSet x.1 key v >>= fun rows2 =>
  pure (rows2, x.2)

/-- One entry of the query tracer: the dict literal built by
`RequestQueryLogger.add` (src/gizmo/connection.py lines 21-28); its
duplicate `query` key collapses to the single key shown here. -/
structure QueryEntry where
  query : String
  script : String
  params : PyVal
  execution_time : Int
deriving Repr, DecidableEq

/-- `RequestQueryLogger` (src/gizmo/connection.py lines 16-42): an
in-memory list of query trace entries. -/
structure RequestQueryLogger where
  queries : List QueryEntry
deriving Repr, DecidableEq

/-- `RequestQueryLogger.add`: append one entry. -/
def RequestQueryLogger.addEntry (l : RequestQueryLogger) (script : String)
    (params : PyVal) (query : String) (execution_time : Int) :
    RequestQueryLogger :=
  ⟨l.queries ++ [⟨query, script, params, execution_time⟩]⟩

/-- `RequestQueryLogger.reset`: drop all entries. -/
def RequestQueryLogger.reset (_l : RequestQueryLogger) :
    RequestQueryLogger := ⟨[]⟩

/-- `RequestQueryLogger.total_time`: sum of the recorded execution
times. -/
def RequestQueryLogger.total_time (l : RequestQueryLogger) : Int :=
  (l.queries.map (fun q => q.execution_time)).sum

/-- `copy.deepcopy` of one trace entry: rebuild it, deep-copying the
parameter map. -/
def QueryEntry.deepCopy (q : QueryEntry) : QueryEntry :=
  ⟨q.query, q.script, pyDeepCopy q.params, q.execution_time⟩

/-- `RequestQueryLogger.__add__` (src/gizmo/connection.py lines 40-42):
when the right operand is another logger, extend the left operand's entry
list in place with deep copies of the right operand's entries; otherwise
do nothing.  The method body has no `return`, so Python returns `None`:
the second component is the returned value, always `Option.none`. -/
def RequestQueryLogger.addOp (l : RequestQueryLogger)
    (other : RequestQueryLogger ⊕ PyVal) :
    RequestQueryLogger × Option RequestQueryLogger :=
  match other with
  | .inl t2 => (⟨l.queries ++ t2.queries.map QueryEntry.deepCopy⟩, Option.none)
  | .inr _ => (l, Option.none)

/-- Modelled from the spec: the wrapping exception raised by `send`
(`AstronomerConnectionException`, defined in the repository's exception
module which is not under src/); the spec says every failure is wrapped
in a single error kind re-raised with the original cause attached. -/
structure AstronomerConnectionException where
  cause : String
deriving Repr, DecidableEq

/-- Modelled from the spec: the query-debug renderer (`_query_debug`, in
the repository's util module which is not under src/) produces a
human-readable string from the script and its parameters; its output is
only stored in trace entries, never interpreted. -/
def queryDebug (script : String) (_params : PyVal) : String :=
  script

/-- The effectful steps of one `Request.send` call, abstracted as their
outcomes: establishing the connection, writing the frame, awaiting the
response frame, parsing it as JSON, and the timer's elapsed reading. -/
structure SendEffects where
  connect : Except String Unit
  sendFrame : Except String Unit
  recv : Except String String
  parse : String → Except String PyVal
  elapsed : Int

/-- The connect/send/recv/parse sequence of `Request.send`
(src/gizmo/connection.py lines 103-113): each step runs once, in order,
and the first failure aborts the rest. -/
def sendSteps (eff : SendEffects) : Except String PyVal := do
  let _ ← eff.connect
  let _ ← eff.sendFrame
  let raw ← eff.recv
  eff.parse raw

/-- `ResponseStatus(**data['status'])`: keyword expansion of the status
payload; it must be a mapping supplying `code` and `message`, optionally
`attributes`, and nothing else. -/
def parseStatus (v : PyVal) : Except String ResponseStatus := do
  let es ← asMapping v
  if dictHas es (.str "code") && dictHas es (.str "message")
      && es.all (fun p =>
        decide (p.1 = .str "code") || decide (p.1 = .str "message")
          || decide (p.1 = .str "attributes")) then
    pure ⟨pyGet es (.str "code"), pyGet es (.str "message"),
          if dictHas es (.str "attributes") then pyGet es (.str "attributes")
          else .none⟩
  else
    .error "unexpected keyword arguments to ResponseStatus"

/-- The payload processing of `Request.send` (src/gizmo/connection.py
lines 113-122): run the transport steps, then extract `request_id`,
`result` and `status` from the parsed payload, keeping the defaults
(`None`, `None`, `ResponseStatus(500, '')`) for absent or falsy fields. -/
def sendPhase1 (eff : SendEffects) :
    Except String (PyVal × PyVal × ResponseStatus) :=
  sendSteps eff >>= fun payload =>
  asMapping payload >>= fun es =>
  (if (pyGet es (.str "status")).truthy
   then parseStatus (pyGet es (.str "status"))
   else pure ⟨.int 500, .str "", .none⟩) >>= fun statusLocal =>
  pure ((if (pyGet es (.str "request_id")).truthy
         then pyGet es (.str "request_id") else PyVal.none),
        (if (pyGet es (.str "result")).truthy
         then pyGet es (.str "result") else PyVal.none),
        statusLocal)

/-- `Request.send` (src/gizmo/connection.py lines 84-133) as a function of
the abstracted transport outcomes: run the steps and payload extraction,
record a trace entry when a logger is configured, construct the
`Response` — passing `request_id`, `result`, the binding map, script and
params but, exactly as the source does on line 129, not the status — and
wrap any exception in `AstronomerConnectionException`.  The second
component is the logger state after the call. -/
def Request.sendModel (logger : Option RequestQueryLogger) (script : String)
    (params : PyVal) (ue : List (String × Entity)) (eff : SendEffects) :
    Except AstronomerConnectionException Response
      × Option RequestQueryLogger :=
  let params2 := if params.truthy then params else .dict []
  let query := queryDebug script params2
  match sendPhase1 eff with
  | .error c => (.error ⟨c⟩, logger)
  | .ok (request_id, result, _statusLocal) =>
      let logger2 :=
        logger.map (fun l => l.addEntry script params2 query eff.elapsed)
      match Response.init request_id result ue (.str script) params2
          Option.none with
      | .error c => (.error ⟨c⟩, logger2)
      | .ok resp => (.ok resp, logger2)

/-! ## Helper lemmas about the binding map and the translation fold -/

theorem exc_ok_bind {A B : Type} (a : A) (f : A → Except String B) :
    (Except.ok a >>= f) = f a := rfl

theorem exc_error_bind {A B : Type} (c : String) (f : A → Except String B) :
    ((Except.error c : Except String A) >>= f) = Except.error c := rfl

theorem exc_map_ok {A B : Type} (a : A) (f : A → B) :
    (Except.ok a : Except String A).map f = Except.ok (f a) := rfl

theorem exc_map_error {A B : Type} (c : String) (f : A → B) :
    (Except.error c : Except String A).map f
      = (Except.error c : Except String B) := rfl

/-- Refreshing one entity in place never changes the set of bound
variable names. -/
theorem entAssign_keys (ents : List (String × Entity)) (k : String)
    (e : Entity) :
    (entAssign ents k e).map (fun p => p.1) = ents.map (fun p => p.1) := by
  unfold entAssign
  rw [List.map_map]
  apply List.map_congr_left
  intro p _
  by_cases h : p.1 = k
  · simp [h]
  · simp [h]

/-- One inner hydration iteration preserves the bound variable names. -/
theorem hydrateBinding_keys (acc : List PyVal × List (String × Entity))
    (k v : PyVal) (res : List PyVal × List (String × Entity))
    (h : hydrateBinding acc k v = .ok res) :
    res.2.map (fun p => p.1) = acc.2.map (fun p => p.1) := by
  unfold hydrateBinding at h
  match k with
  | .str s =>
      simp only at h
      cases hg : entGet acc.2 s with
      | none => rw [hg] at h; cases h; rfl
      | some e =>
          rw [hg] at h
          cases hf : fixPropertiesE v with
          | error c => rw [hf] at h; cases h
          | ok props =>
              rw [hf] at h
              cases h
              exact entAssign_keys acc.2 s (Entity.empty e |>.hydrate props)
  | .none => cases h; rfl
  | .bool b => cases h; rfl
  | .int n => cases h; rfl
  | .list xs => cases h; rfl
  | .dict es => cases h; rfl

/-- The inner hydration fold preserves the bound variable names. -/
theorem foldHydrate_keys (es : List (PyVal × PyVal)) :
    ∀ acc res,
      es.foldlM (fun a p => hydrateBinding a p.1 p.2) acc = .ok res →
      res.2.map (fun p => p.1) = acc.2.map (fun p => p.1) := by
  induction es with
  | nil =>
      intro acc res h
      rw [List.foldlM_nil] at h
      cases h
      rfl
  | cons p rest ih =>
      intro acc res h
      rw [List.foldlM_cons] at h
      cases hb : hydrateBinding acc p.1 p.2 with
      | error c => rw [hb] at h; cases h
      | ok mid =>
          rw [hb] at h
          simp only [exc_ok_bind] at h
          rw [ih mid res h]
          exact hydrateBinding_keys acc p.1 p.2 mid hb

/-- One outer translation iteration preserves the bound variable names. -/
theorem translateStep_keys (uk : List String)
    (acc : List PyVal × List (String × Entity)) (arg : PyVal)
    (res : List PyVal × List (String × Entity))
    (h : translateStep uk acc arg = .ok res) :
    res.2.map (fun p => p.1) = acc.2.map (fun p => p.1) := by
  unfold translateStep at h
  by_cases hit : arg.hasIter = false
  · rw [if_pos hit] at h; cases h; rfl
  · rw [if_neg hit] at h
    match arg with
    | .dict es =>
        simp only at h
        by_cases hu : hasUpdate uk (es.map (fun p => p.1)) = true
        · rw [if_pos hu] at h
          exact foldHydrate_keys es acc res h
        · rw [if_neg hu] at h
          cases hf : fixProperties es with
          | error c => rw [hf] at h; cases h
          | ok props => rw [hf] at h; simp only [exc_ok_bind] at h; cases h; rfl
    | .none => cases h; rfl
    | .bool b => cases h; rfl
    | .int n => cases h; rfl
    | .str s => cases h; rfl
    | .list xs => cases h; rfl

/-- The whole translation fold preserves the bound variable names. -/
theorem foldSteps_keys (items : List PyVal) (uk : List String) :
    ∀ acc res,
      items.foldlM (translateStep uk) acc = .ok res →
      res.2.map (fun p => p.1) = acc.2.map (fun p => p.1) := by
  induction items with
  | nil =>
      intro acc res h
      rw [List.foldlM_nil] at h
      cases h
      rfl
  | cons a rest ih =>
      intro acc res h
      rw [List.foldlM_cons] at h
      cases hs : translateStep uk acc a with
      | error c => rw [hs] at h; cases h
      | ok mid =>
          rw [hs] at h
          simp only [exc_ok_bind] at h
          rw [ih mid res h]
          exact translateStep_keys uk acc a mid hs

/-- `translate` only rewrites the binding map: every other field of the
response is returned unchanged, and even the binding map keeps its keys. -/
theorem translate_shape (r : Response) (rows : List PyVal) (r2 : Response)
    (h : Response.translate r = .ok (rows, r2)) :
    r2 = { r with update_entities := r2.update_entities } ∧
      r2.update_entities.map (fun p => p.1)
        = r.update_entities.map (fun p => p.1) := by
  unfold Response.translate at h
  cases hd : effectiveData r.result with
  | error c => rw [hd] at h; cases h
  | ok dataV =>
      rw [hd] at h
      simp only [exc_ok_bind] at h
      cases hi : pyIterE dataV with
      | error c => rw [hi] at h; cases h
      | ok items =>
          rw [hi] at h
          simp only [exc_ok_bind] at h
          cases hf : items.foldlM
              (translateStep (r.update_entities.map (fun p => p.1)))
              ([], r.update_entities) with
          | error c => rw [hf] at h; cases h
          | ok acc =>
              rw [hf] at h
              simp only [exc_ok_bind] at h
              cases h
              refine ⟨rfl, ?_⟩
              exact foldSteps_keys items _ _ acc hf

theorem exc_pure {A : Type} (a : A) :
    (pure a : Except String A) = Except.ok a := rfl

/-! ## Unfolding equations for the translation loop -/

theorem translateStep_none (uk : List String)
    (acc : List PyVal × List (String × Entity)) :
    translateStep uk acc .none
      = .ok ([.dict [(.str "response", .none)]], acc.2) := rfl

theorem translateStep_int (uk : List String)
    (acc : List PyVal × List (String × Entity)) (n : Int) :
    translateStep uk acc (.int n)
      = .ok ([.dict [(.str "response", .int n)]], acc.2) := rfl

theorem translateStep_bool (uk : List String)
    (acc : List PyVal × List (String × Entity)) (b : Bool) :
    translateStep uk acc (.bool b)
      = .ok ([.dict [(.str "response", .bool b)]], acc.2) := rfl

theorem translateStep_scalar (uk : List String)
    (acc : List PyVal × List (String × Entity)) (v : PyVal)
    (h : v.hasIter = false) :
    translateStep uk acc v
      = .ok ([.dict [(.str "response", v)]], acc.2) := by
  unfold translateStep
  rw [if_pos h]

theorem translateStep_str (uk : List String)
    (acc : List PyVal × List (String × Entity)) (s : String) :
    translateStep uk acc (.str s) = .ok (acc.1 ++ [.str s], acc.2) := rfl

theorem translateStep_list (uk : List String)
    (acc : List PyVal × List (String × Entity)) (xs : List PyVal) :
    translateStep uk acc (.list xs) = .ok (acc.1 ++ [.list xs], acc.2) := rfl

theorem translateStep_dict (uk : List String)
    (acc : List PyVal × List (String × Entity))
    (es : List (PyVal × PyVal)) :
    translateStep uk acc (.dict es) =
      if hasUpdate uk (es.map (fun p => p.1)) then
        es.foldlM (fun a p => hydrateBinding a p.1 p.2) acc
      else
        fixProperties es >>= fun props =>
          pure (acc.1 ++ [.dict props], acc.2) := rfl

theorem hydrateBinding_str (acc : List PyVal × List (String × Entity))
    (s : String) (v : PyVal) :
    hydrateBinding acc (.str s) v =
      match entGet acc.2 s with
      | some e => fixPropertiesE v >>= fun props =>
          pure (acc.1 ++ [.dict props],
            entAssign acc.2 s ((e.empty).hydrate props))
      | Option.none => pure acc := rfl

theorem translate_unfold (r : Response) :
    Response.translate r =
      effectiveData r.result >>= fun dataV =>
      pyIterE dataV >>= fun items =>
      (items.foldlM (translateStep (r.update_entities.map (fun p => p.1)))
        ([], r.update_entities)) >>= fun acc =>
      pure (acc.1, { r with update_entities := acc.2 }) := rfl

/-! ## The translated rows depend only on the result and the bound names -/

/-- The part of a fold accumulator that the translated rows can depend
on: the rows built so far and the bound variable names (never the entity
field values). -/
def foldView (a : List PyVal × List (String × Entity)) :
    List PyVal × List String :=
  (a.1, a.2.map (fun p => p.1))

theorem entGet_isSome_iff (a : List (String × Entity)) (s : String) :
    (entGet a s).isSome = true ↔ s ∈ a.map (fun p => p.1) := by
  unfold entGet
  cases hf : a.find? (fun p => decide (p.1 = s)) with
  | none =>
      show false = true ↔ s ∈ a.map (fun p => p.1)
      rw [List.find?_eq_none] at hf
      simp only [Bool.false_eq_true, false_iff]
      intro hmem
      obtain ⟨x, hx, hxs⟩ := List.mem_map.mp hmem
      exact (hf x hx) (by simpa using hxs)
  | some p =>
      show true = true ↔ s ∈ a.map (fun p => p.1)
      have hp := List.find?_some hf
      have hmem := List.mem_of_find?_eq_some hf
      simp only [decide_eq_true_eq] at hp
      simp only [true_iff]
      exact List.mem_map.mpr ⟨p, hmem, hp⟩

theorem entGet_isSome_congr (a b : List (String × Entity)) (s : String)
    (h : a.map (fun p => p.1) = b.map (fun p => p.1)) :
    (entGet a s).isSome = (entGet b s).isSome := by
  by_cases ha : (entGet a s).isSome = true
  · have hmem := (entGet_isSome_iff a s).mp ha
    rw [h] at hmem
    rw [ha, (entGet_isSome_iff b s).mpr hmem]
  · have hb : ¬ (entGet b s).isSome = true := by
      intro hbb
      apply ha
      apply (entGet_isSome_iff a s).mpr
      rw [h]
      exact (entGet_isSome_iff b s).mp hbb
    rw [Bool.not_eq_true] at ha hb
    rw [ha, hb]

/-- Hydrating one binding produces the same rows and the same bound names
from accumulators that agree on rows and bound names. -/
theorem hydrateBinding_congr (a b : List PyVal × List (String × Entity))
    (k v : PyVal) (h1 : a.1 = b.1)
    (h2 : a.2.map (fun p => p.1) = b.2.map (fun p => p.1)) :
    (hydrateBinding a k v).map foldView
      = (hydrateBinding b k v).map foldView := by
  cases k with
  | str s =>
      rw [hydrateBinding_str, hydrateBinding_str]
      have hs := entGet_isSome_congr a.2 b.2 s h2
      cases hga : entGet a.2 s with
      | none =>
          cases hgb : entGet b.2 s with
          | none =>
              show Except.ok (foldView a) = Except.ok (foldView b)
              unfold foldView
              rw [h1, h2]
          | some e => rw [hga, hgb] at hs; simp at hs
      | some e =>
          cases hgb : entGet b.2 s with
          | none => rw [hga, hgb] at hs; simp at hs
          | some e2 =>
              cases hf : fixPropertiesE v with
              | error c => rfl
              | ok props =>
                  show Except.ok (foldView (a.1 ++ [.dict props],
                      entAssign a.2 s ((e.empty).hydrate props)))
                    = Except.ok (foldView (b.1 ++ [.dict props],
                      entAssign b.2 s ((e2.empty).hydrate props)))
                  unfold foldView
                  simp only [entAssign_keys]
                  rw [h1, h2]
  | none =>
      show Except.ok (foldView a) = Except.ok (foldView b)
      unfold foldView
      rw [h1, h2]
  | bool b2 =>
      show Except.ok (foldView a) = Except.ok (foldView b)
      unfold foldView
      rw [h1, h2]
  | int n =>
      show Except.ok (foldView a) = Except.ok (foldView b)
      unfold foldView
      rw [h1, h2]
  | list xs =>
      show Except.ok (foldView a) = Except.ok (foldView b)
      unfold foldView
      rw [h1, h2]
  | dict es =>
      show Except.ok (foldView a) = Except.ok (foldView b)
      unfold foldView
      rw [h1, h2]

/-- The inner hydration fold produces the same rows and bound names from
accumulators that agree on rows and bound names. -/
theorem foldHydrate_congr (es : List (PyVal × PyVal)) :
    ∀ a b : List PyVal × List (String × Entity), a.1 = b.1 →
      a.2.map (fun p => p.1) = b.2.map (fun p => p.1) →
      (es.foldlM (fun x p => hydrateBinding x p.1 p.2) a).map foldView
        = (es.foldlM (fun x p => hydrateBinding x p.1 p.2) b).map foldView := by
  induction es with
  | nil =>
      intro a b h1 h2
      rw [List.foldlM_nil, List.foldlM_nil]
      show Except.ok (foldView a) = Except.ok (foldView b)
      unfold foldView
      rw [h1, h2]
  | cons p rest ih =>
      intro a b h1 h2
      rw [List.foldlM_cons, List.foldlM_cons]
      have hstep := hydrateBinding_congr a b p.1 p.2 h1 h2
      cases hsa : hydrateBinding a p.1 p.2 with
      | error c =>
          rw [hsa] at hstep
          cases hsb : hydrateBinding b p.1 p.2 with
          | error c2 =>
              rw [hsb] at hstep
              simp only [exc_map_error] at hstep
              cases hstep
              rfl
          | ok b2 =>
              rw [hsb] at hstep
              exact Except.noConfusion hstep
      | ok a2 =>
          rw [hsa] at hstep
          cases hsb : hydrateBinding b p.1 p.2 with
          | error c2 =>
              rw [hsb] at hstep
              exact Except.noConfusion hstep
          | ok b2 =>
              rw [hsb] at hstep
              simp only [exc_map_ok, Except.ok.injEq, foldView,
                Prod.mk.injEq] at hstep
              exact ih a2 b2 hstep.1 hstep.2

/-- One outer translation step produces the same rows and bound names
from accumulators that agree on rows and bound names. -/
theorem translateStep_congr (uk : List String) (arg : PyVal)
    (a b : List PyVal × List (String × Entity)) (h1 : a.1 = b.1)
    (h2 : a.2.map (fun p => p.1) = b.2.map (fun p => p.1)) :
    (translateStep uk a arg).map foldView
      = (translateStep uk b arg).map foldView := by
  cases arg with
  | dict es =>
      rw [translateStep_dict, translateStep_dict]
      by_cases hu : hasUpdate uk (es.map (fun p => p.1)) = true
      · rw [if_pos hu, if_pos hu]
        exact foldHydrate_congr es a b h1 h2
      · rw [if_neg hu, if_neg hu]
        cases hf : fixProperties es with
        | error c => rfl
        | ok props =>
            show Except.ok (foldView (a.1 ++ [.dict props], a.2))
              = Except.ok (foldView (b.1 ++ [.dict props], b.2))
            unfold foldView
            rw [h1, h2]
  | none =>
      rw [translateStep_none, translateStep_none]
      simp only [exc_map_ok, foldView]
      rw [h2]
  | bool b2 =>
      rw [translateStep_bool, translateStep_bool]
      simp only [exc_map_ok, foldView]
      rw [h2]
  | int n =>
      rw [translateStep_int, translateStep_int]
      simp only [exc_map_ok, foldView]
      rw [h2]
  | str s =>
      rw [translateStep_str, translateStep_str]
      show Except.ok (foldView (a.1 ++ [.str s], a.2))
        = Except.ok (foldView (b.1 ++ [.str s], b.2))
      unfold foldView
      rw [h1, h2]
  | list xs =>
      rw [translateStep_list, translateStep_list]
      show Except.ok (foldView (a.1 ++ [.list xs], a.2))
        = Except.ok (foldView (b.1 ++ [.list xs], b.2))
      unfold foldView
      rw [h1, h2]

/-- The outer translation fold produces the same rows and bound names
from accumulators that agree on rows and bound names. -/
theorem foldSteps_congr (items : List PyVal) (uk : List String) :
    ∀ a b : List PyVal × List (String × Entity), a.1 = b.1 →
      a.2.map (fun p => p.1) = b.2.map (fun p => p.1) →
      (items.foldlM (translateStep uk) a).map foldView
        = (items.foldlM (translateStep uk) b).map foldView := by
  induction items with
  | nil =>
      intro a b h1 h2
      rw [List.foldlM_nil, List.foldlM_nil]
      show Except.ok (foldView a) = Except.ok (foldView b)
      unfold foldView
      rw [h1, h2]
  | cons x rest ih =>
      intro a b h1 h2
      rw [List.foldlM_cons, List.foldlM_cons]
      have hstep := translateStep_congr uk x a b h1 h2
      cases hsa : translateStep uk a x with
      | error c =>
          rw [hsa] at hstep
          cases hsb : translateStep uk b x with
          | error c2 =>
              rw [hsb] at hstep
              simp only [exc_map_error] at hstep
              cases hstep
              rfl
          | ok b2 =>
              rw [hsb] at hstep
              exact Except.noConfusion hstep
      | ok a2 =>
          rw [hsa] at hstep
          cases hsb : translateStep uk b x with
          | error c2 =>
              rw [hsb] at hstep
              exact Except.noConfusion hstep
          | ok b2 =>
              rw [hsb] at hstep
              simp only [exc_map_ok, Except.ok.injEq, foldView,
                Prod.mk.injEq] at hstep
              exact ih a2 b2 hstep.1 hstep.2

/-- The translated rows depend only on the raw result and the bound
variable names, never on the entity field values. -/
theorem translate_rows_congr (r r2 : Response) (hres : r.result = r2.result)
    (hkeys : r.update_entities.map (fun p => p.1)
      = r2.update_entities.map (fun p => p.1)) :
    (Response.translate r).map (fun p => p.1)
      = (Response.translate r2).map (fun p => p.1) := by
  rw [translate_unfold, translate_unfold, ← hres, ← hkeys]
  cases hd : effectiveData r.result with
  | error c => rfl
  | ok dataV =>
      rw [exc_ok_bind, exc_ok_bind]
      cases hi : pyIterE dataV with
      | error c => rfl
      | ok items =>
          rw [exc_ok_bind, exc_ok_bind]
          have hc := foldSteps_congr items
            (r.update_entities.map (fun p => p.1))
            ([], r.update_entities) ([], r2.update_entities) rfl hkeys
          cases hfa : (items.foldlM
              (translateStep (r.update_entities.map (fun p => p.1)))
              ([], r.update_entities)) with
          | error c =>
              rw [hfa] at hc
              cases hfb : (items.foldlM
                  (translateStep (r.update_entities.map (fun p => p.1)))
                  ([], r2.update_entities)) with
              | error c2 =>
                  rw [hfb] at hc
                  simp only [exc_map_error] at hc
                  cases hc
                  rfl
              | ok y =>
                  rw [hfb] at hc
                  exact Except.noConfusion hc
          | ok x =>
              rw [hfa] at hc
              cases hfb : (items.foldlM
                  (translateStep (r.update_entities.map (fun p => p.1)))
                  ([], r2.update_entities)) with
              | error c2 =>
                  rw [hfb] at hc
                  exact Except.noConfusion hc
              | ok y =>
                  rw [hfb] at hc
                  simp only [exc_map_ok, Except.ok.injEq, foldView,
                    Prod.mk.injEq] at hc
                  show Except.ok x.1 = Except.ok y.1
                  rw [hc.1]

instance {E A : Type} [DecidableEq E] [DecidableEq A] :
    DecidableEq (Except E A) := fun a b =>
  match a, b with
  | .ok x, .ok y =>
      if h : x = y then .isTrue (by rw [h]) else
        .isFalse (fun hc => h (by cases hc; rfl))
  | .error x, .error y =>
      if h : x = y then .isTrue (by rw [h]) else
        .isFalse (fun hc => h (by cases hc; rfl))
  | .ok x, .error y => .isFalse (fun hc => Except.noConfusion hc)
  | .error x, .ok y => .isFalse (fun hc => Except.noConfusion hc)

theorem asMapping_dict (es : List (PyVal × PyVal)) :
    asMapping (.dict es) = .ok es := rfl

theorem pyIterE_list (xs : List PyVal) : pyIterE (.list xs) = .ok xs := rfl

/-! ## Sample inputs used by the claim theorems -/

/-- The map-as-list-of-pairs payload of the quirk-repair example. -/
def titanPairsSample : PyVal :=
  .list [.dict [(.str "key", .str "name"), (.str "value", .str "alice")],
         .dict [(.str "key", .str "age"), (.str "value", .int 30)]]

/-- A response whose raw data is the scalar sequence `[1, 2, 3]`. -/
def scalarSeqSample : Response :=
  ⟨.none, .dict [(.str "data", .list [.int 1, .int 2, .int 3])], [],
   .none, .none, Option.none⟩

/-- A response whose raw data ends in the scalar `2` after a string row. -/
def scalarTailSample : Response :=
  ⟨.none, .dict [(.str "data", .list [.str "x", .int 2])], [],
   .none, .none, Option.none⟩

/-- A response with two plain mapping rows and no bindings. -/
def plainRowsSample : Response :=
  ⟨.none, .dict [(.str "data",
      .list [.dict [(.str "a", .int 1)], .dict [(.str "b", .int 2)]])], [],
   .none, .none, Option.none⟩

/-- The first translated row of `plainRowsSample`. -/
def plainRow1 : PyVal :=
  .dict [(.str "a", .int 1), (.str "id", .none), (.str "type", .none),
         (.str "label", .none)]

/-- The second translated row of `plainRowsSample`. -/
def plainRow2 : PyVal :=
  .dict [(.str "b", .int 2), (.str "id", .none), (.str "type", .none),
         (.str "label", .none)]

/-! ## C2: the map-as-list-of-pairs repair -/

/-- C2 counterexample: the repair step does not reconstruct a single
merged mapping.  On the pair list of the claim it produces a list of one
singleton mapping per pair, which is neither the merged mapping
`(name, alice), (age, 30)` nor a list containing it. -/
theorem C2_counterexample :
    fixTitanData titanPairsSample
      = .list [.dict [(.str "name", .str "alice")],
               .dict [(.str "age", .int 30)]]
    ∧ fixTitanData titanPairsSample
        ≠ .dict [(.str "name", .str "alice"), (.str "age", .int 30)]
    ∧ fixTitanData titanPairsSample
        ≠ .list [.dict [(.str "name", .str "alice"), (.str "age", .int 30)]] := by
  refine ⟨?_, ?_, ?_⟩ <;> decide

/-- C2 (amended): when the raw data exhibits the map-as-list-of-pairs
quirk, the repair step rebuilds one singleton mapping per key/value pair
— the pair list of the claim reconstructs to the list
`[(name ↦ alice)], [(age ↦ 30)]` — and whenever the reconstruction is
empty while the input list is not, the original input is returned
unchanged. -/
theorem C2_titan_repair :
    (fixTitanData titanPairsSample
      = .list [.dict [(.str "name", .str "alice")],
               .dict [(.str "age", .int 30)]])
    ∧ (∀ xs : List PyVal, xs ≠ [] → titanFixedPairs xs = [] →
        fixTitanData (.list xs) = .list xs) := by
  constructor
  · decide
  · intro xs hne hfix
    cases xs with
    | nil => exact absurd rfl hne
    | cons a as =>
        show (if (!(a :: as).isEmpty && (titanFixedPairs (a :: as)).isEmpty)
              = true
            then PyVal.list (a :: as)
            else PyVal.list (titanFixedPairs (a :: as)))
          = PyVal.list (a :: as)
        rw [hfix]
        rfl

/-- Witness for `C2_titan_repair` at the concrete input `[1]`. -/
theorem C2_titan_repair_witness :
    ([PyVal.int 1] ≠ ([] : List PyVal))
    ∧ titanFixedPairs [PyVal.int 1] = []
    ∧ fixTitanData (.list [PyVal.int 1]) = .list [PyVal.int 1] :=
  ⟨by decide, by decide,
   C2_titan_repair.2 [PyVal.int 1] (by decide) (by decide)⟩

/-! ## C8: tracer combination -/

theorem QueryEntry_deepCopy_id (q : QueryEntry) : QueryEntry.deepCopy q = q := by
  cases q with
  | mk a b c d => simp [QueryEntry.deepCopy, pyDeepCopy_id]

theorem map_deepCopy_id (l : List QueryEntry) :
    l.map QueryEntry.deepCopy = l := by
  induction l with
  | nil => rfl
  | cons q rest ih => simp [QueryEntry_deepCopy_id, ih]

/-- C8: combining tracer `t1` with tracer `t2` appends (deep copies of)
`t2`'s entries to `t1`'s entry list — the combined state is exactly the
concatenation, so `total_time` and the entry count add up — and the
operation returns `None`, never a new tracer object.  When the right
operand is not a tracer, nothing happens at all. -/
theorem C8_tracer_combine (t1 t2 : RequestQueryLogger) (pv : PyVal) :
    RequestQueryLogger.addOp t1 (.inl t2)
      = (⟨t1.queries ++ t2.queries⟩, Option.none)
    ∧ (RequestQueryLogger.addOp t1 (.inl t2)).1.total_time
        = t1.total_time + t2.total_time
    ∧ (RequestQueryLogger.addOp t1 (.inl t2)).1.queries.length
        = t1.queries.length + t2.queries.length
    ∧ RequestQueryLogger.addOp t1 (.inr pv) = (t1, Option.none) := by
  refine ⟨?_, ?_, ?_, ?_⟩
  · simp [RequestQueryLogger.addOp, map_deepCopy_id]
  · simp [RequestQueryLogger.addOp, map_deepCopy_id,
      RequestQueryLogger.total_time]
  · simp [RequestQueryLogger.addOp, map_deepCopy_id]
  · rfl

/-! ## C10: total subscript lookup -/

/-- C10: `Response.__getitem__` never raises: whatever the key, it
returns a (deep copy of the) row when the lookup succeeds and `None`
when the lookup — or the translation itself — fails, including
out-of-range integer indices and non-integer keys.  The concrete
conjuncts exercise an out-of-range index, a string key and a negative
in-range index. -/
theorem C10_getitem_total :
    (∀ (r : Response) (k : PyVal) (rows : List PyVal) (r2 : Response)
        (row : PyVal),
        Response.data r = .ok (rows, r2) → pyListGet rows k = .ok row →
        Response.getItem r k = (row, r2))
    ∧ (∀ (r : Response) (k : PyVal) (rows : List PyVal) (r2 : Response)
        (e : String),
        Response.data r = .ok (rows, r2) → pyListGet rows k = .error e →
        Response.getItem r k = (.none, r2))
    ∧ (∀ (r : Response) (k : PyVal) (e : String),
        Response.data r = .error e → Response.getItem r k = (.none, r))
    ∧ (Response.getItem plainRowsSample (.int 5)).1 = .none
    ∧ (Response.getItem plainRowsSample (.str "x")).1 = .none
    ∧ (Response.getItem plainRowsSample (.int (-1))).1 = plainRow2 := by
  refine ⟨?_, ?_, ?_, ?_, ?_, ?_⟩
  · intro r k rows r2 row hd hg
    simp only [Response.getItem, hd, hg, pyDeepCopy_id]
  · intro r k rows r2 e hd hg
    simp only [Response.getItem, hd, hg]
  · intro r k e hd
    simp only [Response.getItem, hd]
  · decide
  · decide
  · decide

/-- Witness for `C10_getitem_total` at index 0 of the two-row sample. -/
theorem C10_getitem_total_witness :
    Response.getItem plainRowsSample (.int 0)
      = (plainRow1, plainRowsSample) :=
  C10_getitem_total.1 plainRowsSample (.int 0) [plainRow1, plainRow2]
    plainRowsSample plainRow1 (by decide) (by decide)

/-! ## C1: the scalar short-circuit -/

/-- C1: whenever the data sequence the translation loop walks ends in a
non-iterable element `v`, the ENTIRE translated output is the single
synthetic row `(response ↦ v)` — every row accumulated earlier in the
same call is discarded, so the last scalar-shaped element wins — and in
particular the raw data sequence `[1, 2, 3]` translates to exactly
`[(response ↦ 3)]`. -/
theorem C1_scalar_short_circuit :
    (∀ (r : Response) (xs : List PyVal) (v : PyVal) (rows : List PyVal)
        (r2 : Response),
        v.hasIter = false →
        effectiveData r.result = .ok (.list (xs ++ [v])) →
        Response.translate r = .ok (rows, r2) →
        rows = [.dict [(.str "response", v)]])
    ∧ Response.translate scalarSeqSample
        = .ok ([.dict [(.str "response", .int 3)]], scalarSeqSample) := by
  constructor
  · intro r xs v rows r2 hv hd ht
    rw [translate_unfold, hd, exc_ok_bind, pyIterE_list, exc_ok_bind,
      List.foldlM_append] at ht
    cases hfa : (xs.foldlM
        (translateStep (r.update_entities.map (fun p => p.1)))
        ([], r.update_entities)) with
    | error c =>
        rw [hfa] at ht
        simp only [exc_error_bind] at ht
        exact Except.noConfusion ht
    | ok mid =>
        rw [hfa, exc_ok_bind, List.foldlM_cons,
          translateStep_scalar _ _ v hv, exc_ok_bind, List.foldlM_nil] at ht
        simp only [exc_pure, exc_ok_bind, Except.ok.injEq,
          Prod.mk.injEq] at ht
        exact ht.1.symm
  · decide

/-- Witness for `C1_scalar_short_circuit` on a string row followed by the
scalar `2`: the string row is discarded, only the scalar survives. -/
theorem C1_scalar_short_circuit_witness :
    PyVal.hasIter (.int 2) = false
    ∧ effectiveData scalarTailSample.result
        = .ok (.list ([.str "x"] ++ [.int 2]))
    ∧ Response.translate scalarTailSample
        = .ok ([.dict [(.str "response", .int 2)]], scalarTailSample)
    ∧ [PyVal.dict [(.str "response", .int 2)]]
        = [PyVal.dict [(.str "response", .int 2)]] :=
  ⟨by decide, by decide, by decide,
   C1_scalar_short_circuit.1 scalarTailSample [.str "x"] (.int 2)
     [.dict [(.str "response", .int 2)]] scalarTailSample
     (by decide) (by decide) (by decide)⟩

/-! ## C6: failure wrapping and the tracer frame -/

/-- C6: whichever step of a `send` call fails — connecting, sending the
frame, receiving, or parsing — `send` returns a single wrapping
connection-error exception carrying the original cause, and the tracer
is exactly as it was before the call (no entry is recorded).  Each step
runs at most once by construction of the model, so no retry occurs. -/
theorem C6_send_failure_wrapped :
    ∀ (logger : Option RequestQueryLogger) (script : String) (params : PyVal)
      (ue : List (String × Entity)) (eff : SendEffects) (c : String),
      (eff.connect = .error c →
        Request.sendModel logger script params ue eff = (.error ⟨c⟩, logger))
      ∧ (eff.connect = .ok () → eff.sendFrame = .error c →
        Request.sendModel logger script params ue eff = (.error ⟨c⟩, logger))
      ∧ (eff.connect = .ok () → eff.sendFrame = .ok () →
        eff.recv = .error c →
        Request.sendModel logger script params ue eff = (.error ⟨c⟩, logger))
      ∧ (∀ raw : String, eff.connect = .ok () → eff.sendFrame = .ok () →
        eff.recv = .ok raw → eff.parse raw = .error c →
        Request.sendModel logger script params ue eff
          = (.error ⟨c⟩, logger)) := by
  intro logger script params ue eff c
  have main : sendSteps eff = .error c →
      Request.sendModel logger script params ue eff = (.error ⟨c⟩, logger) := by
    intro hc
    have hp : sendPhase1 eff = .error c := by
      unfold sendPhase1
      rw [hc]
      rfl
    simp only [Request.sendModel, hp]
  refine ⟨?_, ?_, ?_, ?_⟩
  · intro h1
    apply main
    unfold sendSteps
    rw [h1]
    rfl
  · intro h1 h2
    apply main
    unfold sendSteps
    rw [h1, h2]
    rfl
  · intro h1 h2 h3
    apply main
    unfold sendSteps
    rw [h1, h2, h3]
    rfl
  · intro raw h1 h2 h3 h4
    apply main
    unfold sendSteps
    rw [h1, h2, h3]
    exact h4

/-- A transport that fails to connect. -/
def connectFailEff : SendEffects :=
  ⟨.error "connection refused", .ok (), .ok "", fun _ => .ok .none, 0⟩

/-- Witness for `C6_send_failure_wrapped`: a connect failure surfaces as
the wrapping exception and leaves the (empty) tracer untouched. -/
theorem C6_send_failure_wrapped_witness :
    Request.sendModel (some ⟨[]⟩) "g" (.dict []) [] connectFailEff
      = (.error ⟨"connection refused"⟩, some ⟨[]⟩) :=
  (C6_send_failure_wrapped (some ⟨[]⟩) "g" (.dict []) [] connectFailEff
    "connection refused").1 (by decide)

/-! ## C5: the status default and the dropped status -/

/-- The payload entries of `statuslessEff`. -/
def statuslessPayload : List (PyVal × PyVal) :=
  [(.str "result", .dict [(.str "data", .list [])])]

/-- A transport whose parsed payload carries a result but no status. -/
def statuslessEff : SendEffects :=
  ⟨.ok (), .ok (), .ok "frame", fun _ => .ok (.dict statuslessPayload), 5⟩

/-- The response `send` builds from `statuslessEff`. -/
def statuslessResp : Response :=
  ⟨.none, .dict [(.str "data", .list [])], [], .str "g", .dict [],
   Option.none⟩

/-- C5 counterexample: on a payload without a status field the local
status inside `send` does default to the internal-error status (code 500,
empty message), but the `Response` that `send` returns does NOT own it —
`send` constructs the `Response` without passing the status, so its
status is `None`, not the internal-error status the claim asserts. -/
theorem C5_counterexample :
    (sendPhase1 statuslessEff).map (fun t => t.2.2)
      = .ok ⟨.int 500, .str "", .none⟩
    ∧ Request.sendModel Option.none "g" (.dict []) [] statuslessEff
        = (.ok statuslessResp, Option.none)
    ∧ statuslessResp.status = Option.none := by
  refine ⟨?_, ?_, ?_⟩ <;> decide

/-- Fields of the response built by `Response.__init__` from its
constructor arguments. -/
theorem response_init_shape (request_id result : PyVal)
    (ue : List (String × Entity)) (script params : PyVal)
    (status : Option ResponseStatus) (resp : Response)
    (h : Response.init request_id result ue script params status
      = .ok resp) :
    resp.request_id = request_id
    ∧ resp.result = (if result.truthy then result else .dict [])
    ∧ resp.script = script ∧ resp.params = params ∧ resp.status = status
    ∧ resp.update_entities.map (fun p => p.1)
        = ue.map (fun p => p.1) := by
  unfold Response.init at h
  cases ht : Response.translate
      { request_id := request_id,
        result := if result.truthy then result else .dict [],
        update_entities := ue, script := script, params := params,
        status := status } with
  | error c =>
      rw [ht] at h
      simp only [exc_error_bind] at h
      exact Except.noConfusion h
  | ok x =>
      rw [ht] at h
      simp only [exc_ok_bind, exc_pure, Except.ok.injEq] at h
      subst h
      have hsh := translate_shape _ x.1 x.2 ht
      refine ⟨?_, ?_, ?_, ?_, ?_, ?_⟩
      · rw [hsh.1]
      · rw [hsh.1]
      · rw [hsh.1]
      · rw [hsh.1]
      · rw [hsh.1]
      · exact hsh.2

/-- C5 (amended): for every send call whose parsed payload is a mapping
without a (truthy) status field, the status extracted inside `send`
defaults to the internal-error status (code 500, empty message), but
`send` constructs the returned `Response` without passing that status —
the line-129 call omits the argument — so the Response's status is
`None`; the Response does own `request_id`, the raw result (defaulted to
an empty mapping when falsy) and the binding map's variable names. -/
theorem C5_status_dropped :
    ∀ (eff : SendEffects) (es : List (PyVal × PyVal))
      (logger l2 : Option RequestQueryLogger) (script : String)
      (params : PyVal) (ue : List (String × Entity)) (resp : Response),
      sendSteps eff = .ok (.dict es) →
      (pyGet es (.str "status")).truthy = false →
      Request.sendModel logger script params ue eff = (.ok resp, l2) →
      (sendPhase1 eff).map (fun t => t.2.2) = .ok ⟨.int 500, .str "", .none⟩
      ∧ resp.status = Option.none
      ∧ resp.request_id = (if (pyGet es (.str "request_id")).truthy
          then pyGet es (.str "request_id") else PyVal.none)
      ∧ resp.result = (if (pyGet es (.str "result")).truthy
          then pyGet es (.str "result") else .dict [])
      ∧ resp.update_entities.map (fun p => p.1)
          = ue.map (fun p => p.1) := by
  intro eff es logger l2 script params ue resp h1 h2 h3
  have hph : sendPhase1 eff
      = .ok ((if (pyGet es (.str "request_id")).truthy
              then pyGet es (.str "request_id") else PyVal.none),
             (if (pyGet es (.str "result")).truthy
              then pyGet es (.str "result") else PyVal.none),
             ⟨.int 500, .str "", .none⟩) := by
    unfold sendPhase1
    rw [h1, exc_ok_bind, asMapping_dict, exc_ok_bind,
      if_neg (show ¬ (pyGet es (.str "status")).truthy = true by
        rw [h2]; exact Bool.false_ne_true)]
    rfl
  have h500 : (sendPhase1 eff).map (fun t => t.2.2)
      = .ok ⟨.int 500, .str "", .none⟩ := by
    rw [hph]; rfl
  simp only [Request.sendModel, hph] at h3
  cases hi : Response.init
      (if (pyGet es (.str "request_id")).truthy
       then pyGet es (.str "request_id") else PyVal.none)
      (if (pyGet es (.str "result")).truthy
       then pyGet es (.str "result") else PyVal.none)
      ue (.str script) (if params.truthy then params else .dict [])
      Option.none with
  | error c =>
      rw [hi] at h3
      simp only [Prod.mk.injEq] at h3
      exact Except.noConfusion h3.1
  | ok r1 =>
      rw [hi] at h3
      simp only [Prod.mk.injEq, Except.ok.injEq] at h3
      obtain ⟨hresp, hl2⟩ := h3
      subst hresp
      have hs := response_init_shape _ _ _ _ _ _ _ hi
      refine ⟨h500, hs.2.2.2.2.1, hs.1, ?_, hs.2.2.2.2.2⟩
      rw [hs.2.1]
      by_cases hr : (pyGet es (.str "result")).truthy = true
      · simp [hr]
      · simp only [Bool.not_eq_true] at hr
        simp only [hr, Bool.false_eq_true, if_false]
        simp [PyVal.truthy]

/-- Witness for `C5_status_dropped` on the concrete status-less
transport. -/
theorem C5_status_dropped_witness :
    (sendPhase1 statuslessEff).map (fun t => t.2.2)
      = .ok ⟨.int 500, .str "", .none⟩
    ∧ statuslessResp.status = Option.none
    ∧ statuslessResp.request_id
        = (if (pyGet statuslessPayload (.str "request_id")).truthy
           then pyGet statuslessPayload (.str "request_id") else PyVal.none)
    ∧ statuslessResp.result
        = (if (pyGet statuslessPayload (.str "result")).truthy
           then pyGet statuslessPayload (.str "result") else .dict [])
    ∧ statuslessResp.update_entities.map (fun p => p.1)
        = ([] : List (String × Entity)).map (fun p => p.1) :=
  C5_status_dropped statuslessEff statuslessPayload Option.none Option.none
    "g" (.dict []) [] statuslessResp (by decide) (by decide) (by decide)

/-! ## C4: plain-mapping round trip -/

/-- The id/type/label normalization that translation applies to a plain
mapping row with no properties key: each of the three keys assigned from
the original row's (possibly absent, then `None`) value. -/
def normTranslated (res : List (PyVal × PyVal)) : List (PyVal × PyVal) :=
  dictSet (dictSet (dictSet res (.str "id") (pyGet res (.str "id")))
    (.str "type") (pyGet res (.str "type")))
    (.str "label") (pyGet res (.str "label"))

theorem fixProperties_no_props (res : List (PyVal × PyVal))
    (h : dictHas res (.str "properties") = false) :
    fixProperties res = .ok (normTranslated res) := by
  unfold fixProperties
  rw [if_neg (show ¬ dictHas res (.str "properties") = true by
    rw [h]; exact Bool.false_ne_true)]
  rw [exc_pure, exc_ok_bind, pyDeepCopyDict_id]
  rfl

theorem normTranslated_get_id (res : List (PyVal × PyVal)) :
    dictGet (normTranslated res) (.str "id")
      = some (pyGet res (.str "id")) := by
  unfold normTranslated
  rw [dictGet_dictSet_ne _ _ _ _ (by decide),
    dictGet_dictSet_ne _ _ _ _ (by decide), dictGet_dictSet_self]

theorem normTranslated_get_type (res : List (PyVal × PyVal)) :
    dictGet (normTranslated res) (.str "type")
      = some (pyGet res (.str "type")) := by
  unfold normTranslated
  rw [dictGet_dictSet_ne _ _ _ _ (by decide), dictGet_dictSet_self]

theorem normTranslated_get_label (res : List (PyVal × PyVal)) :
    dictGet (normTranslated res) (.str "label")
      = some (pyGet res (.str "label")) := by
  unfold normTranslated
  rw [dictGet_dictSet_self]

theorem normTranslated_get_other (res : List (PyVal × PyVal)) (k : PyVal)
    (h1 : k ≠ .str "id") (h2 : k ≠ .str "type") (h3 : k ≠ .str "label") :
    dictGet (normTranslated res) k = dictGet res k := by
  unfold normTranslated
  rw [dictGet_dictSet_ne _ _ _ _ h3, dictGet_dictSet_ne _ _ _ _ h2,
    dictGet_dictSet_ne _ _ _ _ h1]

/-- Translation of a single plain mapping row that triggers neither the
quirk repair nor hydration: the output is the normalized row and the
binding map is untouched. -/
theorem translate_single_plain_row (r : Response)
    (res : List (PyVal × PyVal))
    (hres : r.result = .dict [(.str "data", .list [.dict res])])
    (hkv : dictHas res (.str "key") = false
      ∨ dictHas res (.str "value") = false)
    (hup : hasUpdate (r.update_entities.map (fun p => p.1))
      (res.map (fun p => p.1)) = false)
    (hprops : dictHas res (.str "properties") = false) :
    Response.translate r = .ok ([.dict (normTranslated res)], r) := by
  have hcond : (dictHas res (.str "key") && dictHas res (.str "value"))
      = false := by
    cases hkv with
    | inl h => rw [h]; rfl
    | inr h => rw [h, Bool.and_false]
  have hpairs : titanFixedPairs [.dict res] = [] := by
    simp [titanFixedPairs, hcond]
    intro hk
    cases hkv with
    | inl h => rw [h] at hk; exact Bool.noConfusion hk
    | inr h => exact h
  have htf : fixTitanData (.list [.dict res]) = .list [.dict res] := by
    show (if (!([PyVal.dict res]).isEmpty
          && (titanFixedPairs [PyVal.dict res]).isEmpty) = true
        then PyVal.list [PyVal.dict res]
        else PyVal.list (titanFixedPairs [PyVal.dict res]))
      = PyVal.list [PyVal.dict res]
    rw [hpairs]
    rfl
  have hed : effectiveData r.result = .ok (.list [.dict res]) := by
    rw [hres]
    unfold effectiveData
    rw [asMapping_dict, exc_ok_bind]
    show Except.ok (fixTitanData (.list [.dict res]))
      = .ok (.list [.dict res])
    rw [htf]
  rw [translate_unfold, hed, exc_ok_bind, pyIterE_list, exc_ok_bind,
    List.foldlM_cons, translateStep_dict,
    if_neg (show ¬ hasUpdate (r.update_entities.map (fun p => p.1))
        (res.map (fun p => p.1)) = true by
      rw [hup]; exact Bool.false_ne_true),
    fixProperties_no_props res hprops, exc_ok_bind, exc_pure, exc_ok_bind,
    List.foldlM_nil, exc_pure, exc_ok_bind]
  rfl

/-- A response whose single raw row is a plain mapping that happens to
carry both a `key` and a `value` entry. -/
def titanShapedRowSample : Response :=
  ⟨.none, .dict [(.str "data", .list [.dict
      [(.str "key", .str "a"), (.str "value", .int 1),
       (.str "x", .int 2)]])], [], .none, .none, Option.none⟩

/-- C4 counterexample: a plain mapping row with no properties key and no
binding match whose keys happen to include both `key` and `value` is
intercepted by the map-as-list-of-pairs repair, so its translated row is
the repaired singleton mapping plus normalization — not the input row
plus normalization that the claim asserts (the `value`, `key` and `x`
entries are gone). -/
theorem C4_counterexample :
    Response.translate titanShapedRowSample
      = .ok ([.dict [(.str "a", .int 1), (.str "id", .none),
          (.str "type", .none), (.str "label", .none)]],
          titanShapedRowSample)
    ∧ [PyVal.dict [(.str "a", .int 1), (.str "id", .none),
          (.str "type", .none), (.str "label", .none)]]
        ≠ [PyVal.dict (normTranslated
            [(.str "key", .str "a"), (.str "value", .int 1),
             (.str "x", .int 2)])] := by
  constructor <;> decide

/-- C4 (amended): for every raw result row that is a plain mapping with
no properties key, none of whose keys matches a binding, and which does
not bear both a `key` and a `value` entry (that shape is claimed by the
quirk repair first), the translated row equals the input row with `id`,
`type` and `label` made present (the row's own value, or `None` when
absent) and no other key added, removed or altered; the binding map is
untouched. -/
theorem C4_plain_row_roundtrip :
    ∀ (r : Response) (res : List (PyVal × PyVal)) (rows : List PyVal)
      (r2 : Response),
      r.result = .dict [(.str "data", .list [.dict res])] →
      (dictHas res (.str "key") = false
        ∨ dictHas res (.str "value") = false) →
      hasUpdate (r.update_entities.map (fun p => p.1))
        (res.map (fun p => p.1)) = false →
      dictHas res (.str "properties") = false →
      Response.translate r = .ok (rows, r2) →
      rows = [.dict (normTranslated res)]
      ∧ r2 = r
      ∧ dictGet (normTranslated res) (.str "id")
          = some (pyGet res (.str "id"))
      ∧ dictGet (normTranslated res) (.str "type")
          = some (pyGet res (.str "type"))
      ∧ dictGet (normTranslated res) (.str "label")
          = some (pyGet res (.str "label"))
      ∧ ∀ k : PyVal, k ≠ .str "id" → k ≠ .str "type" → k ≠ .str "label" →
          dictGet (normTranslated res) k = dictGet res k := by
  intro r res rows r2 hres hkv hup hprops htrans
  have hts := translate_single_plain_row r res hres hkv hup hprops
  rw [hts] at htrans
  simp only [Except.ok.injEq, Prod.mk.injEq] at htrans
  refine ⟨htrans.1.symm, htrans.2.symm, normTranslated_get_id res,
    normTranslated_get_type res, normTranslated_get_label res,
    fun k h1 h2 h3 => normTranslated_get_other res k h1 h2 h3⟩

/-- A response with a single plain row `(a ↦ 1)` and no bindings. -/
def plainSingleSample : Response :=
  ⟨.none, .dict [(.str "data", .list [.dict [(.str "a", .int 1)]])], [],
   .none, .none, Option.none⟩

/-- Witness for `C4_plain_row_roundtrip` on the row `(a ↦ 1)`. -/
theorem C4_plain_row_roundtrip_witness :
    [PyVal.dict (normTranslated [(.str "a", .int 1)])]
      = [PyVal.dict (normTranslated [(.str "a", .int 1)])]
    ∧ plainSingleSample = plainSingleSample
    ∧ dictGet (normTranslated [(.str "a", .int 1)]) (.str "id")
        = some (pyGet [(.str "a", .int 1)] (.str "id"))
    ∧ dictGet (normTranslated [(.str "a", .int 1)]) (.str "type")
        = some (pyGet [(.str "a", .int 1)] (.str "type"))
    ∧ dictGet (normTranslated [(.str "a", .int 1)]) (.str "label")
        = some (pyGet [(.str "a", .int 1)] (.str "label"))
    ∧ ∀ k : PyVal, k ≠ .str "id" → k ≠ .str "type" → k ≠ .str "label" →
        dictGet (normTranslated [(.str "a", .int 1)]) k
          = dictGet [(.str "a", .int 1)] k :=
  C4_plain_row_roundtrip plainSingleSample [(.str "a", .int 1)]
    [PyVal.dict (normTranslated [(.str "a", .int 1)])] plainSingleSample
    (by decide) (Or.inl (by decide)) (by decide) (by decide) (by decide)

/-! ## C3: hydration side effect -/

/-- A response binding script variable `v` to entity `e0`, whose single
raw row maps `v` to the mapping `res`. -/
def hydrationSample (e0 : Entity) (res : List (PyVal × PyVal)) : Response :=
  ⟨.none, .dict [(.str "data",
      .list [.dict [(.str "v", .dict res)]])], [("v", e0)],
   .none, .none, Option.none⟩

/-- The raw row value of the claim's hydration example. -/
def hydrationRow : List (PyVal × PyVal) :=
  [(.str "id", .int 7), (.str "label", .str "person"),
   (.str "properties", .dict [(.str "name", .list [.str "x"])])]

/-- Its flattened properties: the `properties` sub-mapping merged to the
top level, `id`/`label` kept, `type` normalized to `None`. -/
def hydrationRowFixed : List (PyVal × PyVal) :=
  [(.str "id", .int 7), (.str "label", .str "person"),
   (.str "name", .list [.str "x"]), (.str "type", .none)]

/-- C3: for every binding map `v ↦ entity` and raw row `v ↦ res`,
translation appends the flattened properties of `res` to the output AND
replaces the bound entity's state with exactly
`(Entity.empty e0).hydrate props` — an expression in which the previous
fields of `e0` do not occur, so every field not present in the row is
cleared.  The concrete conjunct runs the claim's example: the entity that
started with an `old` field ends with exactly the flattened row's
fields. -/
theorem C3_hydration_refresh :
    (∀ (e0 : Entity) (res props : List (PyVal × PyVal)),
        fixProperties res = .ok props →
        Response.translate (hydrationSample e0 res)
          = .ok ([.dict props],
              { hydrationSample e0 res with
                  update_entities :=
                    [("v", (Entity.empty e0).hydrate props)] }))
    ∧ Response.translate
        (hydrationSample ⟨[(.str "old", .int 1)]⟩ hydrationRow)
        = .ok ([.dict hydrationRowFixed],
            { hydrationSample ⟨[(.str "old", .int 1)]⟩ hydrationRow with
                update_entities := [("v", ⟨hydrationRowFixed⟩)] }) := by
  constructor
  · intro e0 res props h
    have h2 : fixPropertiesE (.dict res) = .ok props := h
    have hb : hydrateBinding ([], [("v", e0)]) (.str "v") (.dict res)
        = .ok ([.dict props], [("v", (Entity.empty e0).hydrate props)]) := by
      rw [hydrateBinding_str]
      show (fixPropertiesE (.dict res) >>= fun props2 =>
          pure (([] : List PyVal) ++ [.dict props2],
            entAssign [("v", e0)] "v" ((Entity.empty e0).hydrate props2)))
        = .ok ([.dict props], [("v", (Entity.empty e0).hydrate props)])
      rw [h2, exc_ok_bind]
      rfl
    have hstep : translateStep ["v"] ([], [("v", e0)])
        (.dict [(.str "v", .dict res)])
        = .ok ([.dict props], [("v", (Entity.empty e0).hydrate props)]) := by
      rw [translateStep_dict,
        if_pos (show hasUpdate ["v"]
          ([((PyVal.str "v"), PyVal.dict res)].map (fun p => p.1)) = true
          from rfl),
        List.foldlM_cons]
      show hydrateBinding ([], [("v", e0)]) (.str "v") (.dict res)
          >>= (fun init => List.foldlM
            (fun (a : List PyVal × List (String × Entity))
                (p : PyVal × PyVal) => hydrateBinding a p.1 p.2) init [])
        = .ok ([.dict props], [("v", (Entity.empty e0).hydrate props)])
      rw [hb, exc_ok_bind, List.foldlM_nil]
      rfl
    rw [translate_unfold,
      show effectiveData (hydrationSample e0 res).result
        = .ok (.list [.dict [(.str "v", .dict res)]]) from rfl,
      exc_ok_bind, pyIterE_list, exc_ok_bind,
      show (hydrationSample e0 res).update_entities = [("v", e0)] from rfl,
      List.foldlM_cons]
    show (translateStep (List.map (fun p => p.1) [("v", e0)])
        ([], [("v", e0)]) (.dict [(.str "v", .dict res)])
        >>= fun init => List.foldlM
          (translateStep (List.map (fun p => p.1) [("v", e0)])) init [])
        >>= (fun acc => pure (acc.1,
          { hydrationSample e0 res with update_entities := acc.2 }))
      = _
    rw [show (List.map (fun p => p.1) ([("v", e0)] : List (String × Entity)))
        = ["v"] from rfl,
      hstep, exc_ok_bind, List.foldlM_nil, exc_pure, exc_ok_bind]
    rfl
  · decide

/-- Witness for `C3_hydration_refresh` on the claim's example row with an
entity whose previous state had an `old` field. -/
theorem C3_hydration_refresh_witness :
    fixProperties hydrationRow = .ok hydrationRowFixed
    ∧ Response.translate
        (hydrationSample ⟨[(.str "old", .int 1)]⟩ hydrationRow)
        = .ok ([.dict hydrationRowFixed],
            { hydrationSample ⟨[(.str "old", .int 1)]⟩ hydrationRow with
                update_entities :=
                  [("v", (Entity.empty ⟨[(.str "old", .int 1)]⟩).hydrate
                      hydrationRowFixed)] }) :=
  ⟨by decide,
   C3_hydration_refresh.1 ⟨[(.str "old", .int 1)]⟩ hydrationRow
     hydrationRowFixed (by decide)⟩

/-! ## C7: translation is pure and idempotent without bindings -/

/-- The element list the translation loop walks (empty when the walk
itself would raise). -/
def rawItems (r : Response) : List PyVal :=
  match effectiveData r.result >>= pyIterE with
  | .ok items => items
  | .error _ => []

theorem hasUpdate_nil (ks : List PyVal) :
    hasUpdate ([] : List String) ks = false := by
  induction ks with
  | nil => rfl
  | cons k rest ih =>
      unfold hasUpdate at ih ⊢
      rw [List.any_cons, ih, Bool.or_false]
      cases k <;> rfl

/-- A translation step on a row that matches no binding leaves the
binding map untouched. -/
theorem translateStep_ents_frozen (uk : List String)
    (acc : List PyVal × List (String × Entity)) (arg : PyVal)
    (res : List PyVal × List (String × Entity))
    (hnd : ∀ es2, arg = .dict es2 →
      hasUpdate uk (es2.map (fun p => p.1)) = false)
    (h : translateStep uk acc arg = .ok res) : res.2 = acc.2 := by
  cases arg with
  | dict es =>
      rw [translateStep_dict,
        if_neg (show ¬ hasUpdate uk (es.map (fun p => p.1)) = true by
          rw [hnd es rfl]; exact Bool.false_ne_true)] at h
      cases hf : fixProperties es with
      | error c =>
          rw [hf] at h
          simp only [exc_error_bind] at h
          exact Except.noConfusion h
      | ok props =>
          rw [hf, exc_ok_bind] at h
          simp only [exc_pure, Except.ok.injEq] at h
          rw [← h]
  | none => rw [translateStep_none] at h; cases h; rfl
  | bool b => rw [translateStep_bool] at h; cases h; rfl
  | int n => rw [translateStep_int] at h; cases h; rfl
  | str s => rw [translateStep_str] at h; cases h; rfl
  | list xs => rw [translateStep_list] at h; cases h; rfl

/-- The translation fold over binding-free rows leaves the binding map
untouched. -/
theorem foldSteps_ents_frozen (items : List PyVal) (uk : List String) :
    ∀ acc res,
      (∀ es2, PyVal.dict es2 ∈ items →
        hasUpdate uk (es2.map (fun p => p.1)) = false) →
      items.foldlM (translateStep uk) acc = .ok res → res.2 = acc.2 := by
  induction items with
  | nil =>
      intro acc res hnd h
      rw [List.foldlM_nil] at h
      simp only [exc_pure, Except.ok.injEq] at h
      rw [← h]
  | cons a rest ih =>
      intro acc res hnd h
      rw [List.foldlM_cons] at h
      cases hs : translateStep uk acc a with
      | error c =>
          rw [hs] at h
          simp only [exc_error_bind] at h
          exact Except.noConfusion h
      | ok mid =>
          rw [hs, exc_ok_bind] at h
          have h1 := translateStep_ents_frozen uk acc a mid
            (fun es2 he => hnd es2 (he ▸ List.mem_cons_self a rest)) hs
          rw [ih mid res
            (fun es2 hm => hnd es2 (List.mem_cons_of_mem a hm)) h, h1]

/-- C7: when no row of the raw data names a bound entity, translation
returns the response state completely unchanged — in particular the raw
result it reads from is not mutated — and invoking translation a second
time on the resulting state yields the identical translated rows. -/
theorem C7_translate_idempotent :
    ∀ (r : Response) (rows : List PyVal) (r2 : Response),
      (∀ es2, PyVal.dict es2 ∈ rawItems r →
        hasUpdate (r.update_entities.map (fun p => p.1))
          (es2.map (fun p => p.1)) = false) →
      Response.translate r = .ok (rows, r2) →
      r2 = r ∧ r2.result = r.result
      ∧ Response.translate r2 = .ok (rows, r2) := by
  intro r rows r2 hnd ht
  have key : r2 = r := by
    rw [translate_unfold] at ht
    cases hd : effectiveData r.result with
    | error c =>
        rw [hd] at ht
        simp only [exc_error_bind] at ht
        exact Except.noConfusion ht
    | ok dataV =>
        rw [hd, exc_ok_bind] at ht
        cases hi : pyIterE dataV with
        | error c =>
            rw [hi] at ht
            simp only [exc_error_bind] at ht
            exact Except.noConfusion ht
        | ok items =>
            rw [hi, exc_ok_bind] at ht
            have hraw : rawItems r = items := by
              unfold rawItems
              rw [hd, exc_ok_bind, hi]
            cases hf : items.foldlM
                (translateStep (r.update_entities.map (fun p => p.1)))
                ([], r.update_entities) with
            | error c =>
                rw [hf] at ht
                simp only [exc_error_bind] at ht
                exact Except.noConfusion ht
            | ok acc =>
                rw [hf, exc_ok_bind] at ht
                simp only [exc_pure, Except.ok.injEq, Prod.mk.injEq] at ht
                have hfr := foldSteps_ents_frozen items _
                  ([], r.update_entities) acc
                  (fun es2 hm => hnd es2 (by rw [hraw]; exact hm)) hf
                rw [← ht.2, hfr]
  refine ⟨key, by rw [key], ?_⟩
  rw [key] at ht ⊢
  exact ht

/-- Witness for `C7_translate_idempotent` on the binding-free two-row
sample. -/
theorem C7_translate_idempotent_witness :
    plainRowsSample = plainRowsSample
    ∧ plainRowsSample.result = plainRowsSample.result
    ∧ Response.translate plainRowsSample
        = .ok ([plainRow1, plainRow2], plainRowsSample) :=
  C7_translate_idempotent plainRowsSample [plainRow1, plainRow2]
    plainRowsSample
    (fun es2 _ => hasUpdate_nil (es2.map (fun p : PyVal × PyVal => p.1)))
    (by decide)

/-! ## C9: setitem mutates only a fresh list -/

/-- C9: the `data` property recomputes translation on every access —
nothing is cached — so `__setitem__` mutates only the freshly computed
list: the response state after a `__setitem__` is exactly the state any
plain `data` read would produce, and a subsequent `data` read returns
the same rows as if `__setitem__` had never been called. -/
theorem C9_setitem_frame :
    (∀ r : Response, Response.data r = Response.translate r)
    ∧ (∀ (r : Response) (k v : PyVal) (rows2 : List PyVal) (r2 : Response),
        Response.setItem r k v = .ok (rows2, r2) →
        (Response.translate r2).map (fun p => p.1)
          = (Response.translate r).map (fun p => p.1)
        ∧ ∀ (rows : List PyVal) (rMid : Response),
            Response.translate r = .ok (rows, rMid) →
            r2 = rMid ∧ pyListSet rows k v = .ok rows2) := by
  constructor
  · intro r; rfl
  · intro r k v rows2 r2 h
    unfold Response.setItem Response.data at h
    cases hd : Response.translate r with
    | error c =>
        rw [hd] at h
        simp only [exc_error_bind] at h
        exact Except.noConfusion h
    | ok x =>
        rw [hd, exc_ok_bind] at h
        cases hl : pyListSet x.1 k v with
        | error c =>
            rw [hl] at h
            simp only [exc_error_bind] at h
            exact Except.noConfusion h
        | ok rows3 =>
            rw [hl, exc_ok_bind] at h
            simp only [exc_pure, Except.ok.injEq, Prod.mk.injEq] at h
            obtain ⟨hrows, hr2⟩ := h
            have hsh := translate_shape r x.1 x.2 hd
            have hres2 : x.2.result = r.result := by rw [hsh.1]
            have hcong := translate_rows_congr x.2 r hres2 hsh.2
            constructor
            · rw [← hr2, ← hd]
              exact hcong
            · intro rows rMid h2
              simp only [Except.ok.injEq] at h2
              have hx1 : x.1 = rows := by rw [h2]
              have hx2 : x.2 = rMid := by rw [h2]
              constructor
              · rw [← hr2, hx2]
              · rw [← hx1, hl, hrows]

/-- Witness for `C9_setitem_frame`: assigning index 0 of the two-row
sample leaves every later `data` read unchanged. -/
theorem C9_setitem_frame_witness :
    (Response.translate plainRowsSample).map (fun p => p.1)
      = (Response.translate plainRowsSample).map (fun p => p.1)
    ∧ ∀ (rows : List PyVal) (rMid : Response),
        Response.translate plainRowsSample = .ok (rows, rMid) →
        plainRowsSample = rMid
        ∧ pyListSet rows (.int 0) (.int 9) = .ok [.int 9, plainRow2] :=
  C9_setitem_frame.2 plainRowsSample (.int 0) (.int 9)
    [.int 9, plainRow2] plainRowsSample (by decide)

end Gizmo
